import Mathlib

/-!
Verification development for the Nextcloud FilePicker module
(`nextcloud-filepicker`, `main.js`).

The JavaScript source is shallowly embedded: the string primitives the code
uses (`substring`, `slice`, `split('/').pop()`, `replace`, `encodeURIComponent`,
`decodeURIComponent`) are modelled as total Lean functions on `String`
(character lists; JS `length` counts UTF-16 units, which coincides with the
character count for the ASCII data handled here).  Network transport and
XML/DOM parsing are external collaborators of the code: a transport response
is modelled as an `Except` value, and a parsed XML document as the list of
element records the code queries out of it, in document order.
-/

set_option autoImplicit false
set_option linter.unusedVariables false

namespace NCFP

/-- Decidable equality for `Except`, used to evaluate transport outcomes in
concrete scenarios. -/
instance exceptDecEq {ε α : Type} [DecidableEq ε] [DecidableEq α] :
    DecidableEq (Except ε α) := fun x y =>
  match x, y with
  | .ok a, .ok b =>
    if h : a = b then isTrue (by rw [h])
    else isFalse (fun hc => h (Except.ok.inj hc))
  | .error a, .error b =>
    if h : a = b then isTrue (by rw [h])
    else isFalse (fun hc => h (Except.error.inj hc))
  | .ok _, .error _ => isFalse (fun hc => Except.noConfusion hc)
  | .error _, .ok _ => isFalse (fun hc => Except.noConfusion hc)

/-- Clamp an integer index into `[0, n]`, as JS `substring` does
(negative values become `0`, values past the end become `n`). -/
def clampNat (i : Int) (n : Nat) : Nat := min i.toNat n

/-- Model of JS `s.substring(a, b)`: both indices are clamped into
`[0, length]` and swapped when out of order. -/
def jsSubstring (s : String) (a b : Int) : String :=
  let n := s.data.length
  let x := clampNat a n
  let y := clampNat b n
  String.mk ((s.data.take (max x y)).drop (min x y))

/-- Model of JS `s.slice(-1)`: the last character of `s` as a one-character
string, or `""` when `s` is empty. -/
def sliceLast (s : String) : String :=
  String.mk (s.data.drop (s.data.length - 1))

/-- Model of JS `s.split('/').pop()`: the suffix of `s` after its last `'/'`
(the whole string when it contains no `'/'`). -/
def lastSeg (s : String) : String :=
  String.mk ((s.data.reverse.takeWhile (fun c => c != '/')).reverse)

/-- Model of the JS regex replace `s.replace(/\/$/, "")`: remove one trailing
slash if present. -/
def stripTrailingSlashOnce (s : String) : String :=
  if s.data.getLast? = some '/' then String.mk s.data.dropLast else s

/-- Model of the JS regex replace `s.replace(/^\//, "")`: remove one leading
slash if present. -/
def stripLeadingSlashOnce (s : String) : String :=
  match s.data with
  | '/' :: rest => String.mk rest
  | _ => s

/-- Helper for `jsReplaceFirst`: replace the first occurrence of `pat`
(non-empty) in the list. -/
def replFirstAux (pat repl : List Char) : List Char → List Char
  | [] => []
  | c :: cs =>
    if pat.isPrefixOf (c :: cs) then repl ++ (c :: cs).drop pat.length
    else c :: replFirstAux pat repl cs

/-- Model of JS `s.replace(pat, repl)` with a string pattern: only the first
occurrence is replaced (`s.replace("", r)` prepends `r`, as in JS). -/
def jsReplaceFirst (s pat repl : String) : String :=
  if pat.data = [] then repl ++ s
  else String.mk (replFirstAux pat.data repl.data s.data)

/-- Boolean string prefix test (used to state the root-prefix claims). -/
def startsWithStr (s p : String) : Bool := p.data.isPrefixOf s.data

/-- Boolean string suffix test, modelling JS `s.endsWith(p)`. -/
def endsWithStr (s p : String) : Bool := p.data.isSuffixOf s.data

/-- ASCII lowercasing of one character, as JS `toLowerCase` does on the
ASCII range handled here. -/
def charToLower (c : Char) : Char :=
  let n := c.toNat
  if 65 ≤ n ∧ n ≤ 90 then Char.ofNat (n + 32) else c

/-- Model of JS `s.toLowerCase()`. -/
def toLowerStr (s : String) : String := String.mk (s.data.map charToLower)

/-- Strict lexicographic order on character lists by code point. -/
def lexLt : List Char → List Char → Bool
  | [], [] => false
  | [], _ :: _ => true
  | _ :: _, [] => false
  | a :: as, b :: bs =>
    if a.toNat < b.toNat then true
    else if b.toNat < a.toNat then false
    else lexLt as bs

/-- Characters `encodeURIComponent` leaves unescaped:
`A-Z a-z 0-9 - _ . ! ~ * ' ( )`. -/
def unreservedJS (c : Char) : Bool :=
  let n := c.toNat
  decide ((65 ≤ n ∧ n ≤ 90) ∨ (97 ≤ n ∧ n ≤ 122) ∨ (48 ≤ n ∧ n ≤ 57) ∨
    n = 45 ∨ n = 95 ∨ n = 46 ∨ n = 33 ∨ n = 126 ∨ n = 42 ∨ n = 39 ∨
    n = 40 ∨ n = 41)

/-- Uppercase hexadecimal digit for `n < 16`. -/
def hexDigitU (n : Nat) : Char :=
  if n < 10 then Char.ofNat (48 + n) else Char.ofNat (55 + n)

/-- UTF-8 byte sequence of a Unicode scalar value. -/
def utf8Bytes (n : Nat) : List Nat :=
  if n < 128 then [n]
  else if n < 2048 then [192 + n / 64, 128 + n % 64]
  else if n < 65536 then [224 + n / 4096, 128 + (n / 64) % 64, 128 + n % 64]
  else [240 + n / 262144, 128 + (n / 4096) % 64, 128 + (n / 64) % 64,
    128 + n % 64]

/-- Percent-escape of one byte, e.g. `47 ↦ "%2F"`. -/
def pctChar (b : Nat) : List Char := ['%', hexDigitU (b / 16), hexDigitU (b % 16)]

/-- Character-list worker for `encodeURIComponent`. -/
def encList : List Char → List Char
  | [] => []
  | c :: cs =>
    (if unreservedJS c then [c] else ((utf8Bytes c.toNat).map pctChar).flatten) ++
      encList cs

/-- Model of JS `encodeURIComponent`. -/
def encodeURIComponent (s : String) : String := String.mk (encList s.data)

/-- Hexadecimal digit value of a character, if any. -/
def hexVal (c : Char) : Option Nat :=
  let n := c.toNat
  if 48 ≤ n ∧ n ≤ 57 then some (n - 48)
  else if 65 ≤ n ∧ n ≤ 70 then some (n - 55)
  else if 97 ≤ n ∧ n ≤ 102 then some (n - 87)
  else none

/-- Turn a percent-encoded character list into the byte list it denotes.
A `%` not followed by two hex digits is kept literally (JS raises `URIError`
there; no input in this development is malformed). -/
def pctBytes : List Char → List Nat
  | '%' :: h1 :: h2 :: rest =>
    match hexVal h1, hexVal h2 with
    | some a, some b => (16 * a + b) :: pctBytes rest
    | _, _ => 37 :: pctBytes (h1 :: h2 :: rest)
  | c :: rest => utf8Bytes c.toNat ++ pctBytes rest
  | [] => []

/-- Continuation-byte test for UTF-8 decoding. -/
def isContByte (b : Nat) : Bool := decide (128 ≤ b ∧ b < 192)

/-- Fuel-indexed UTF-8 decoder over a byte list; invalid lead or continuation
bytes fall back to the byte itself as a character. -/
def utf8DecodeAux : Nat → List Nat → List Char
  | 0, _ => []
  | _, [] => []
  | fuel + 1, b :: rest =>
    if b < 128 then Char.ofNat b :: utf8DecodeAux fuel rest
    else if 192 ≤ b && b < 224 then
      match rest with
      | b2 :: r2 =>
        if isContByte b2 then
          Char.ofNat ((b - 192) * 64 + (b2 - 128)) :: utf8DecodeAux fuel r2
        else Char.ofNat b :: utf8DecodeAux fuel rest
      | [] => [Char.ofNat b]
    else if 224 ≤ b && b < 240 then
      match rest with
      | b2 :: b3 :: r3 =>
        if isContByte b2 && isContByte b3 then
          Char.ofNat ((b - 224) * 4096 + (b2 - 128) * 64 + (b3 - 128)) ::
            utf8DecodeAux fuel r3
        else Char.ofNat b :: utf8DecodeAux fuel rest
      | _ => Char.ofNat b :: utf8DecodeAux fuel rest
    else if 240 ≤ b && b < 248 then
      match rest with
      | b2 :: b3 :: b4 :: r4 =>
        if isContByte b2 && isContByte b3 && isContByte b4 then
          Char.ofNat ((b - 240) * 262144 + (b2 - 128) * 4096 +
              (b3 - 128) * 64 + (b4 - 128)) :: utf8DecodeAux fuel r4
        else Char.ofNat b :: utf8DecodeAux fuel rest
      | _ => Char.ofNat b :: utf8DecodeAux fuel rest
    else Char.ofNat b :: utf8DecodeAux fuel rest

/-- Model of JS `decodeURIComponent`: percent-decode to bytes, then decode
the bytes as UTF-8. -/
def decodeURIComponent (s : String) : String :=
  let bs := pctBytes s.data
  String.mk (utf8DecodeAux bs.length bs)

/-- One `<element>` record of the sharing-API XML response, with the fields
`checkPublicLink` queries: the share kind (`shareType`, 3 = public link,
0 = user), the `url` element when present (the sharing API emits `url` only
for link shares), and the fields used by the directory branch. -/
structure Share where
  shareType : Nat
  url : Option String
  mimetype : String
  fileTarget : String
  sharePath : String
  deriving DecidableEq

/-- Return value of `checkPublicLink`, mirroring the JS value: a URL string,
an array of file names (directory query), `null` (no link found), or `false`
(transport failure caught). -/
inductive CheckResult where
  | link (url : String)
  | fileList (files : List String)
  | noLink
  | failed
  deriving DecidableEq

/-- Directory branch of `checkPublicLink`: for each non-directory share,
strip the leading slash from `file_target`, remove the file name and the
surrounding slashes from `path`, and keep the name when the resulting parent
equals the browse target (`Array.map` producing `undefined` for skipped
elements followed by the `filter` is a `filterMap`). -/
def dirShareFiles (shares : List Share) (target : String) : List String :=
  shares.filterMap fun a =>
    if a.mimetype != "httpd/unix-directory" then
      let file := jsReplaceFirst a.fileTarget "/" ""
      let p := stripLeadingSlashOnce
        (stripTrailingSlashOnce (jsReplaceFirst a.sharePath file ""))
      if p = target then some file else none
    else none

/-- The `path` query parameter `checkPublicLink` sends to the sharing API:
a trailing-slash path is first cut with `substring(0, -1)` (which yields
`""`), the result is percent-encoded, and the configured subdirectory is
prepended when non-empty. -/
def checkPublicLinkQueryPath (path subdir : String) : String :=
  let path1 := if sliceLast path = "/" then jsSubstring path 0 (-1) else path
  let fp := encodeURIComponent path1
  if subdir ≠ "" then subdir ++ "/" ++ fp else fp

/-- Model of `checkPublicLink(path)`.  The transport response is the list of
share records parsed from the XML body (`Except.error` = rejected request,
caught by the surrounding `try` and turned into `false`).  For a file path
the code takes the first `url` element of the document
(`xmlDoc.querySelector("url")`) and appends `/download/` plus the re-encoded
last segment of the already-encoded query path. -/
def checkPublicLink (path subdir target : String)
    (resp : Except Unit (List Share)) : CheckResult :=
  let filePath := checkPublicLinkQueryPath path subdir
  match resp with
  | .error _ => .failed
  | .ok shares =>
    if sliceLast path = "/" then .fileList (dirShareFiles shares target)
    else
      match (shares.filterMap Share.url).head? with
      | some u => .link (u ++ "/download/" ++ encodeURIComponent (lastSeg filePath))
      | none => .noLink

/-- The subdirectory-qualified path sent in the body of the share-creation
request issued by `createPublicLink`. -/
def createPublicLinkRequestPath (file subdir : String) : String :=
  if subdir ≠ "" then subdir ++ "/" ++ file else file

/-- Model of `createPublicLink(file)`.  The response is the `url` element of
the created share, when present.  There is no `try`/`catch` in the function,
so a rejected request propagates (`Except.error`); a response without a
`url` element yields `null` (`Except.ok none`). -/
def createPublicLink (file : String)
    (resp : Except Unit (Option String)) : Except Unit (Option String) :=
  let fileName := encodeURIComponent (lastSeg file)
  match resp with
  | .error e => .error e
  | .ok none => .ok none
  | .ok (some u) => .ok (some (u ++ "/download/" ++ fileName))

/-- The persisted `nextcloudFilePaths` setting: a JS object keyed by strings,
modelled as a total map to `Option`. -/
def StoreMap : Type := String → Option String

/-- Property assignment `m[k] = v` on the settings object. -/
def storeSet (m : StoreMap) (k v : String) : StoreMap :=
  fun x => if x = k then some v else m x

/-- Property read `m[k]` on the settings object (as done in `getData` when
resolving a selected public URL back to a path). -/
def storeGet (m : StoreMap) (k : String) : Option String := m k

/-- Model of `handleFileSelection(filePath, nextcloudUrl)`: read the
`nextcloudFilePaths` map, assign `map[nextcloudUrl] = filePath`, write it
back. -/
def handleFileSelection (filePath nextcloudUrl : String)
    (store : StoreMap) : StoreMap :=
  storeSet store nextcloudUrl filePath

/-- A JS value flowing through `_onSubmit`'s `path` variable: a string, an
array (directory branch of `checkPublicLink`), `null`, or `false`. -/
inductive JsVal where
  | str (s : String)
  | arr (l : List String)
  | jsnull
  | jsfalse
  deriving DecidableEq

/-- JS truthiness of such a value (`""`, `null` and `false` are falsy; an
array is truthy even when empty). -/
def jsTruthy : JsVal → Bool
  | .str s => s != ""
  | .arr _ => true
  | .jsnull => false
  | .jsfalse => false

/-- JS property-key coercion `String(v)` applied when such a value is used
as an object key. -/
def jsToKey : JsVal → String
  | .str s => s
  | .arr l => String.intercalate "," l
  | .jsnull => "null"
  | .jsfalse => "false"

/-- Embed a `checkPublicLink` result into the JS value used by `_onSubmit`. -/
def checkToVal : CheckResult → JsVal
  | .link u => .str u
  | .fileList l => .arr l
  | .noLink => .jsnull
  | .failed => .jsfalse

/-- Mutable state `_onSubmit` can reach: the persisted path/URL map and the
current browse target (`this.source.target`, which `_onSubmit` never
writes). -/
structure SubmitState where
  store : StoreMap
  target : String

/-- Observable outcome of one `_onSubmit` run: the state afterwards, whether
a share-creation request was issued, the value the selection resolved to
(`none` when the submit aborted before reaching the callback), and whether
an error notification was shown. -/
structure SubmitOutcome where
  store : StoreMap
  target : String
  createRequested : Bool
  resolved : Option JsVal
  notifiedError : Bool

/-- Model of `_onSubmit` on the nextcloud source.  `fileValue` is
`ev.target.file.value`; `proceed` is the confirmation-dialog outcome
(`showConfirmationDialog`, `true` when the skip setting is on or the user
accepts); `shareResp`/`createResp` are the transport responses of the two
requests the flow may issue. -/
def onSubmit (fileValue subdir shareTarget : String) (st : SubmitState)
    (shareResp : Except Unit (List Share)) (proceed : Bool)
    (createResp : Except Unit (Option String)) : SubmitOutcome :=
  if fileValue = "" then
    { store := st.store, target := st.target, createRequested := false,
      resolved := none, notifiedError := true }
  else
    let publicLink := checkToVal (checkPublicLink fileValue subdir shareTarget shareResp)
    if jsTruthy publicLink then
      { store := handleFileSelection fileValue (jsToKey publicLink) st.store,
        target := st.target, createRequested := false,
        resolved := some publicLink, notifiedError := false }
    else if proceed then
      match createPublicLink fileValue createResp with
      | .error _ =>
        { store := st.store, target := st.target, createRequested := true,
          resolved := none, notifiedError := true }
      | .ok v =>
        let pathVal : JsVal := match v with
          | some u => .str u
          | none => .jsnull
        { store := handleFileSelection fileValue (jsToKey pathVal) st.store,
          target := st.target, createRequested := true,
          resolved := some pathVal, notifiedError := false }
    else
      { store := st.store, target := st.target, createRequested := false,
        resolved := none, notifiedError := false }

/-- One `d:response` node of the WebDAV PROPFIND body, as queried by
`_parseWebDavResponse`: its `d:href` text and whether its `resourcetype`
contains a `collection` child. -/
structure DavNode where
  href : String
  isCollection : Bool
  deriving DecidableEq

/-- One file or directory record produced by `_parseWebDavResponse`. -/
structure PEntry where
  name : String
  href : String
  deriving DecidableEq

/-- Model of `removeDavRootDir(dirHref)`: cut the href at
`removalString.length - 1` with JS `substring`. -/
def removeDavRootDir (user subdir dirHref : String) : String :=
  let removalString := "/remote.php/dav/files/" ++ user ++ "/" ++ subdir ++ "/"
  jsSubstring dirHref ((removalString.length : Int) - 1) (dirHref.length : Int)

/-- Output of `_parseWebDavResponse` plus the `path` field that
`_fetchNextcloudFiles` attaches (the queried directory). -/
structure ParseData where
  files : List PEntry
  directories : List PEntry
  path : String
  deriving DecidableEq

/-- One node's record: href with a trailing slash removed and the DAV root
stripped; the display name is the URL-decoded last segment. -/
def davEntry (user subdir : String) (n : DavNode) : PEntry :=
  let href := removeDavRootDir user subdir (stripTrailingSlashOnce n.href)
  { name := decodeURIComponent (lastSeg href), href := href }

/-- Model of `_parseWebDavResponse` followed by `_fetchNextcloudFiles`'s
`data.path = path`: classify the response nodes by the collection flag,
preserving document order. -/
def parseWebDavResponse (user subdir : String) (nodes : List DavNode)
    (path : String) : ParseData :=
  { files := (nodes.filter (fun n => !n.isCollection)).map (davEntry user subdir),
    directories := (nodes.filter (fun n => n.isCollection)).map (davEntry user subdir),
    path := path }

/-- Directory record of `_convertToBrowseResults` (`private` is constantly
`false` there; the field is renamed `priv` since `private` is a Lean
keyword). -/
structure DirEntryR where
  name : String
  path : String
  priv : Bool
  deriving DecidableEq

/-- File record of `_convertToBrowseResults`.  The `img` thumbnail field is
chosen by host media helpers (out-of-scope UI collaborators) and is not
modelled. -/
structure FileEntryR where
  name : String
  path : String
  url : String
  deriving DecidableEq

/-- Directory conversion in `_convertToBrowseResults`. -/
def dirEntryOf (d : PEntry) : DirEntryR :=
  { name := decodeURIComponent d.name, path := decodeURIComponent d.href,
    priv := false }

/-- File conversion in `_convertToBrowseResults`. -/
def fileEntryOf (f : PEntry) : FileEntryR :=
  { name := decodeURIComponent f.name, path := decodeURIComponent f.href,
    url := decodeURIComponent f.href }

/-- Output of `_convertToBrowseResults`. -/
structure ConvResult where
  dirs : List DirEntryR
  files : List FileEntryR
  deriving DecidableEq

/-- Model of `_convertToBrowseResults`: directories whose stripped href
equals the queried path (`nextcloudData.path`) are dropped; files are
converted unconditionally. -/
def convertToBrowseResults (data : ParseData) : ConvResult :=
  { dirs := (data.directories.filter (fun d => d.href != data.path)).map dirEntryOf,
    files := data.files.map fileEntryOf }

/-- The `this.result` record assembled by `browse`. -/
structure BrowseRes where
  target : String
  dirs : List String
  files : List String
  deriving DecidableEq

/-- Model of `browse`'s result assembly: apply the extension filter when the
picker type is not `"any"` and extensions are configured
(case-insensitive suffix match), then project dirs to their paths and files
to their urls. -/
def browseResult (type : String) (extensions : List String) (target : String)
    (conv : ConvResult) : BrowseRes :=
  let filteredFiles :=
    if type != "any" && extensions.length != 0 then
      conv.files.filter fun f =>
        extensions.any fun ext => endsWithStr (toLowerStr f.name) ext
    else conv.files
  { target := target, dirs := conv.dirs.map DirEntryR.path,
    files := filteredFiles.map FileEntryR.url }

/-- Directory row surfaced by `getData` to the UI. -/
structure SurfDir where
  name : String
  path : String
  deriving DecidableEq

/-- File row surfaced by `getData` to the UI. -/
structure SurfFile where
  name : String
  url : String
  deriving DecidableEq

/-- Model of `a.name.localeCompare(b.name)`: locale collation compares
case-insensitively first (lowercased strings), with the raw strings as a
tiebreaker. -/
def localeCompareModel (a b : String) : Int :=
  if lexLt (toLowerStr a).data (toLowerStr b).data then -1
  else if lexLt (toLowerStr b).data (toLowerStr a).data then 1
  else if lexLt a.data b.data then -1
  else if lexLt b.data a.data then 1
  else 0

/-- Insert for the stable comparator sort below: the new element goes after
every element comparing `≤ 0` against it. -/
def insertCmp {α : Type} (cmp : α → α → Int) (x : α) : List α → List α
  | [] => [x]
  | y :: ys => if cmp y x ≤ 0 then y :: insertCmp cmp x ys else x :: y :: ys

/-- Stable comparator sort, modelling `Array.prototype.sort(cmp)`. -/
def sortCmp {α : Type} (cmp : α → α → Int) (l : List α) : List α :=
  l.foldl (fun acc x => insertCmp cmp x acc) []

/-- Directory rows of `getData`: name = decoded last segment, then sorted
with `localeCompare` on names. -/
def getDataDirs (result : BrowseRes) : List SurfDir :=
  sortCmp (fun a b => localeCompareModel a.name b.name)
    (result.dirs.map fun d => { name := decodeURIComponent (lastSeg d), path := d })

/-- File rows of `getData`: name = decoded last segment, in `result.files`
order (no sort is applied to files). -/
def getDataFiles (result : BrowseRes) : List SurfFile :=
  result.files.map fun f => { name := decodeURIComponent (lastSeg f), url := f }

/-- Modelled from the spec: the server-absolute href prefix of WebDAV listing
responses, `/remote.php/dav/files/<account>/<subdirectory>/` (the
subdirectory segment present only when configured). -/
def serverRoot (user subdir : String) : String :=
  "/remote.php/dav/files/" ++ user ++ "/" ++
    (if subdir = "" then "" else subdir ++ "/")

/-- Two strings with the same character data are equal. -/
theorem strExt {s t : String} (h : s.data = t.data) : s = t := by
  cases s
  cases t
  exact congrArg String.mk h

/-- Character data of an appended string. -/
theorem data_append (a b : String) : (a ++ b).data = a.data ++ b.data := rfl

/-- Character data of the empty string. -/
theorem data_empty : ("" : String).data = [] := rfl

/-- String length is the length of the character data. -/
theorem strLength (s : String) : s.length = s.data.length := rfl

/-- Rebuilding a string from its data is the identity. -/
theorem strMk_data (s : String) : String.mk s.data = s := rfl

/-- Appending the empty string is the identity. -/
theorem strAppend_empty (s : String) : s ++ "" = s :=
  strExt (by rw [data_append, data_empty, List.append_nil])

/-- `takeWhile` keeps a list all of whose elements satisfy the predicate. -/
theorem tw_of_all {α : Type} {p : α → Bool} :
    ∀ {l : List α}, (∀ c ∈ l, p c = true) → l.takeWhile p = l
  | [], _ => rfl
  | c :: cs, h => by
    rw [List.takeWhile_cons, h c (List.mem_cons_self c cs),
      tw_of_all (fun x hx => h x (List.mem_cons_of_mem c hx))]
    simp

/-- `takeWhile` walks through a satisfied block and continues behind it. -/
theorem tw_append {α : Type} {p : α → Bool} :
    ∀ (l₁ l₂ : List α), (∀ c ∈ l₁, p c = true) →
      (l₁ ++ l₂).takeWhile p = l₁ ++ l₂.takeWhile p
  | [], _, _ => rfl
  | c :: cs, l₂, h => by
    rw [List.cons_append, List.takeWhile_cons, h c (List.mem_cons_self c cs),
      tw_append cs l₂ (fun x hx => h x (List.mem_cons_of_mem c hx)),
      List.cons_append]
    simp

/-- A string without `'/'` is its own last segment. -/
theorem lastSeg_of_no_slash (s : String) (h : ∀ c ∈ s.data, c ≠ '/') :
    lastSeg s = s := by
  unfold lastSeg
  rw [tw_of_all (fun c hc => by
      simpa using h c (List.mem_reverse.mp hc)),
    List.reverse_reverse, strMk_data]

/-- The last segment after an appended slash is the slash-free tail. -/
theorem lastSeg_append (a b : String) (h : ∀ c ∈ b.data, c ≠ '/') :
    lastSeg (a ++ "/" ++ b) = b := by
  unfold lastSeg
  have hdata : (a ++ "/" ++ b).data = (a.data ++ ['/']) ++ b.data := rfl
  rw [hdata, List.reverse_append, List.reverse_append]
  have : b.data.reverse ++ (['/'].reverse ++ a.data.reverse) =
      b.data.reverse ++ ('/' :: a.data.reverse) := by simp
  rw [this, tw_append _ _ (fun c hc => by
      simpa using h c (List.mem_reverse.mp hc))]
  simp [List.takeWhile_cons]

/-- `encList` leaves a fully unreserved character list unchanged. -/
theorem encList_of_all_unres :
    ∀ (l : List Char), (∀ c ∈ l, unreservedJS c = true) → encList l = l
  | [], _ => rfl
  | c :: cs, h => by
    rw [encList, h c (List.mem_cons_self c cs),
      encList_of_all_unres cs (fun x hx => h x (List.mem_cons_of_mem c hx))]
    rfl

/-- `encodeURIComponent` fixes strings of unreserved characters. -/
theorem encode_of_all_unres (s : String)
    (h : ∀ c ∈ s.data, unreservedJS c = true) : encodeURIComponent s = s := by
  unfold encodeURIComponent
  rw [encList_of_all_unres s.data h, strMk_data]

/-- Unreserved characters are never the path separator. -/
theorem unres_ne_slash (c : Char) (h : unreservedJS c = true) : c ≠ '/' := by
  intro he
  subst he
  exact absurd h (by decide)

/-- JS `substring` starting at the length of a known prefix and ending at the
string length removes exactly that prefix. -/
theorem jsSubstring_prefix_drop (p s : String) (i : Int)
    (hi : i = (p.data.length : Int)) :
    jsSubstring (p ++ s) i ((p ++ s).length : Int) = s := by
  subst hi
  unfold jsSubstring clampNat
  have hdata : (p ++ s).data = p.data ++ s.data := rfl
  have hle : p.data.length ≤ (p ++ s).data.length := by
    rw [hdata, List.length_append]; exact Nat.le_add_right _ _
  rw [strLength]
  simp only [Int.toNat_ofNat]
  rw [Nat.min_self, Nat.min_eq_left hle, Nat.max_eq_right hle,
    Nat.min_eq_left hle, List.take_length, hdata]
  have := List.drop_left p.data s.data
  rw [this, strMk_data]
/-- A non-empty pattern is no prefix of a list its head fails on. -/
theorem isPrefixOf_cons_false {α : Type} [BEq α] {c : α} {p l : List α}
    (h : List.isPrefixOf [c] l = false) : List.isPrefixOf (c :: p) l = false := by
  cases l with
  | nil => rfl
  | cons b bs =>
    have h1 : (c == b) = false := by
      have h2 : (c == b && List.isPrefixOf ([] : List α) bs) = false := h
      simpa using h2
    show (c == b && List.isPrefixOf p bs) = false
    rw [h1, Bool.false_and]

/-- What `removeDavRootDir` does to a server href: the substring cut at
`removalString.length - 1` removes the whole `serverRoot` prefix when no
subdirectory is configured (the removal string then carries a double slash),
and leaves a leading `/` from the prefix when one is configured. -/
theorem removeDavRootDir_serverRoot (user subdir rest : String) :
    removeDavRootDir user subdir (serverRoot user subdir ++ rest) =
      if subdir = "" then rest else "/" ++ rest := by
  by_cases hs : subdir = ""
  · subst hs
    rw [if_pos rfl]
    have hp : serverRoot user "" ++ rest =
        ("/remote.php/dav/files/" ++ user ++ "/") ++ rest := by
      unfold serverRoot
      rw [if_pos rfl, strAppend_empty]
    rw [hp]
    simp only [removeDavRootDir]
    exact jsSubstring_prefix_drop _ _ _ (by
      simp only [strLength, data_append, data_empty, List.length_append,
        List.length_cons, List.length_nil]
      omega)
  · rw [if_neg hs]
    have hq : serverRoot user subdir ++ rest =
        ("/remote.php/dav/files/" ++ user ++ "/" ++ subdir) ++ ("/" ++ rest) := by
      unfold serverRoot
      rw [if_neg hs]
      exact strExt (by simp [data_append, List.append_assoc])
    rw [hq]
    simp only [removeDavRootDir]
    exact jsSubstring_prefix_drop _ _ _ (by
      simp only [strLength, data_append, List.length_append,
        List.length_cons, List.length_nil]
      omega)

/-- C1 (amended): for a single-file path made of URI-unreserved characters
(hence containing no `/`), given a sharing response whose first `url`-bearing
share is the public-link share with base URL `u` — the sharing API emits a
`url` element only for link-kind shares, so user-kind shares are skipped —
and which also contains a user-kind share, `checkPublicLink` returns
`u ++ "/download/" ++ <urlencoded filename>`, ignoring the user-kind share.
For general paths the suffix is instead the re-encoded last segment of the
already-encoded query path (see the counterexample). -/
theorem c1_checkPublicLink_uses_link_share (path subdir target u : String)
    (shares : List Share)
    (hfile : sliceLast path ≠ "/")
    (hplain : ∀ c ∈ path.data, unreservedJS c = true)
    (hfirst : (shares.filterMap Share.url).head? = some u)
    (hkind : ∀ s ∈ shares, s.url.isSome = true → s.shareType = 3)
    (huser : ∃ s ∈ shares, s.shareType = 0) :
    checkPublicLink path subdir target (.ok shares) =
      .link (u ++ "/download/" ++ encodeURIComponent path) := by
  have henc : encodeURIComponent path = path := encode_of_all_unres path hplain
  have hnos : ∀ c ∈ path.data, c ≠ '/' :=
    fun c hc => unres_ne_slash c (hplain c hc)
  have hq : checkPublicLinkQueryPath path subdir =
      if subdir ≠ "" then subdir ++ "/" ++ path else path := by
    simp only [checkPublicLinkQueryPath]
    rw [if_neg hfile, henc]
  have hlast : lastSeg (checkPublicLinkQueryPath path subdir) = path := by
    rw [hq]
    by_cases hsd : subdir = ""
    · rw [if_neg (fun h => h hsd)]
      exact lastSeg_of_no_slash path hnos
    · rw [if_pos hsd]
      exact lastSeg_append subdir path hnos
  simp only [checkPublicLink]
  rw [if_neg hfile, hfirst, hlast, henc]

/-- Counterexample to C1 as stated: for the single-file path
`"dir/notes.txt"` with a link share of base URL `https://cloud/s/AbC` and a
user share present, the suffix is not the urlencoded filename
(`notes.txt`) but the doubly-encoded whole path `dir%252Fnotes.txt`,
because the code re-encodes the last `/`-segment of the already-encoded
query path. -/
theorem c1_counterexample :
    checkPublicLink "dir/notes.txt" "" ""
      (.ok [{ shareType := 0, url := none, mimetype := "text/plain",
              fileTarget := "/notes.txt", sharePath := "/dir/notes.txt" },
            { shareType := 3, url := some "https://cloud/s/AbC",
              mimetype := "text/plain", fileTarget := "/notes.txt",
              sharePath := "/dir/notes.txt" }]) =
      .link "https://cloud/s/AbC/download/dir%252Fnotes.txt" ∧
    CheckResult.link "https://cloud/s/AbC/download/dir%252Fnotes.txt" ≠
      .link "https://cloud/s/AbC/download/notes.txt" := by decide

/-- Witness for C1: the amended theorem applied to `"notes.txt"` with one
user share and one link share. -/
theorem c1_witness :
    checkPublicLink "notes.txt" "" ""
      (.ok [{ shareType := 0, url := none, mimetype := "text/plain",
              fileTarget := "/notes.txt", sharePath := "/notes.txt" },
            { shareType := 3, url := some "https://cloud/s/AbC",
              mimetype := "text/plain", fileTarget := "/notes.txt",
              sharePath := "/notes.txt" }]) =
      .link ("https://cloud/s/AbC" ++ "/download/" ++
        encodeURIComponent "notes.txt") :=
  c1_checkPublicLink_uses_link_share "notes.txt" "" "" "https://cloud/s/AbC"
    _ (by decide) (by decide) (by decide) (by decide) (by decide)

/-- C2: every directory row produced by `_convertToBrowseResults` comes from
a response node whose stripped href differs from the queried directory —
the self-referencing node (stripped href equal to `data.path`) is absent
from the dirs output — and every file row comes from a file node, so the
self node is absent from the files output as well. -/
theorem c2_self_entry_absent (data : ParseData) :
    (∀ e ∈ (convertToBrowseResults data).dirs,
      ∃ d ∈ data.directories, d.href ≠ data.path ∧ e = dirEntryOf d) ∧
    (∀ e ∈ (convertToBrowseResults data).files,
      ∃ f ∈ data.files, e = fileEntryOf f) := by
  constructor
  · intro e he
    simp only [convertToBrowseResults, List.mem_map, List.mem_filter] at he
    obtain ⟨d, ⟨hd, hne⟩, rfl⟩ := he
    exact ⟨d, hd, by simpa using hne, rfl⟩
  · intro e he
    simp only [convertToBrowseResults, List.mem_map] at he
    obtain ⟨f, hf, rfl⟩ := he
    exact ⟨f, hf, rfl⟩

/-- Witness for C2: in a root listing containing the self node (stripped
href `""` equal to the queried path `""`) and a `sub` node, the surfaced
`sub` row originates from a node other than the self node. -/
theorem c2_witness :
    ∃ d ∈ (ParseData.mk [] [⟨"sub", "sub"⟩, ⟨"", ""⟩] "").directories,
      d.href ≠ (ParseData.mk [] [⟨"sub", "sub"⟩, ⟨"", ""⟩] "").path ∧
      (DirEntryR.mk "sub" "sub" false) = dirEntryOf d :=
  (c2_self_entry_absent (ParseData.mk [] [⟨"sub", "sub"⟩, ⟨"", ""⟩] "")).1
    (DirEntryR.mk "sub" "sub" false) (by decide)

/-- C3 (amended): for a server href `serverRoot ++ rest` with `rest` the
path relative to the configured root (no leading slash), `removeDavRootDir`
strips exactly the server root, leaving `rest` when no subdirectory is
configured and `"/" ++ rest` otherwise; consequently the result never
starts with `/remote.php` provided that, when a subdirectory is configured,
`rest` does not itself start with `remote.php` (an entry literally named
`remote.php` violates the original claim — see the counterexample). -/
theorem c3_removeDavRootDir_strips_root (user subdir rest : String)
    (hrel : startsWithStr rest "/" = false)
    (hname : subdir = "" ∨ startsWithStr rest "remote.php" = false) :
    removeDavRootDir user subdir (serverRoot user subdir ++ rest) =
      (if subdir = "" then rest else "/" ++ rest) ∧
    startsWithStr
      (removeDavRootDir user subdir (serverRoot user subdir ++ rest))
      "/remote.php" = false := by
  have heq := removeDavRootDir_serverRoot user subdir rest
  refine ⟨heq, ?_⟩
  rw [heq]
  by_cases hs : subdir = ""
  · rw [if_pos hs]
    show List.isPrefixOf ('/' :: "remote.php".data) rest.data = false
    exact isPrefixOf_cons_false hrel
  · rw [if_neg hs]
    show List.isPrefixOf ('/' :: "remote.php".data) ('/' :: rest.data) = false
    have hr : startsWithStr rest "remote.php" = false := by
      rcases hname with h | h
      · exact absurd h hs
      · exact h
    show (('/' : Char) == '/' && List.isPrefixOf "remote.php".data rest.data) = false
    rw [beq_self_eq_true, Bool.true_and]
    exact hr

/-- Counterexample to C3 as stated: with account `alice` and subdirectory
`sub`, the listing translator turns the server href of a file literally
named `remote.php` into the stripped href `/remote.php`, which does start
with the WebDAV protocol root `/remote.php`. -/
theorem c3_counterexample :
    (parseWebDavResponse "alice" "sub"
        [⟨"/remote.php/dav/files/alice/sub/remote.php", false⟩] "").files =
      [⟨"remote.php", "/remote.php"⟩] ∧
    startsWithStr "/remote.php" "/remote.php" = true := by decide

/-- Witness for C3: the amended theorem applied to account `alice`, empty
subdirectory and the relative entry `photo.png`. -/
theorem c3_witness :
    removeDavRootDir "alice" "" (serverRoot "alice" "" ++ "photo.png") =
      (if ("" : String) = "" then "photo.png" else "/" ++ "photo.png") ∧
    startsWithStr
      (removeDavRootDir "alice" "" (serverRoot "alice" "" ++ "photo.png"))
      "/remote.php" = false :=
  c3_removeDavRootDir_strips_root "alice" "" "photo.png" (by decide)
    (Or.inl rfl)

/-- C4 (amended): `checkPublicLink` never propagates a transport failure —
a rejected request is caught and returned as `false` — and for a single-file
path whose successful sharing response contains no `url` element it returns
`null` (a falsy value, not an exception, but not `false` as claimed: see
the counterexample). -/
theorem c4_checkPublicLink_failure_modes (path subdir target : String)
    (shares : List Share) (e : Unit)
    (hfile : sliceLast path ≠ "/")
    (hnone : (shares.filterMap Share.url).head? = none) :
    checkPublicLink path subdir target (.error e) = .failed ∧
    checkPublicLink path subdir target (.ok shares) = .noLink := by
  constructor
  · rfl
  · simp only [checkPublicLink]
    rw [if_neg hfile, hnone]

/-- Counterexample to C4 as stated: a successful sharing response carrying
only a user share (no `url` element) makes `checkPublicLink` return `null`
(`noLink`), which is not the claimed `false` (`failed`). -/
theorem c4_counterexample :
    checkPublicLink "notes.txt" "" ""
      (.ok [{ shareType := 0, url := none, mimetype := "text/plain",
              fileTarget := "/notes.txt", sharePath := "/notes.txt" }]) =
      .noLink ∧
    CheckResult.noLink ≠ CheckResult.failed := by decide

/-- Witness for C4: the amended theorem applied to `"notes.txt"` with a
rejected request and with an empty share list. -/
theorem c4_witness :
    checkPublicLink "notes.txt" "" "" (.error ()) = .failed ∧
    checkPublicLink "notes.txt" "" "" (.ok []) = .noLink :=
  c4_checkPublicLink_failure_modes "notes.txt" "" "" [] () (by decide)
    (by decide)

/-- C5 (amended): `createPublicLink` returns `null` only when the
share-creation response itself contains no `url` element; a transport
failure is not converted to `null` but propagates to the caller (which
catches and reports it — see the counterexample).  On success it returns
the created share's URL with `/download/<encoded filename>` appended, the
same shape as `checkPublicLink`'s file branch for plain filenames. -/
theorem c5_createPublicLink_failure_modes (file u : String) (e : Unit)
    (hplain : ∀ c ∈ file.data, unreservedJS c = true) :
    createPublicLink file (.ok (some u)) =
      .ok (some (u ++ "/download/" ++ encodeURIComponent file)) ∧
    createPublicLink file (.ok none) = .ok none ∧
    createPublicLink file (.error e) = .error e := by
  have hnos : ∀ c ∈ file.data, c ≠ '/' :=
    fun c hc => unres_ne_slash c (hplain c hc)
  refine ⟨?_, rfl, rfl⟩
  simp only [createPublicLink]
  rw [lastSeg_of_no_slash file hnos]

/-- Counterexample to C5 as stated: with a failing transport,
`createPublicLink` evaluates to the propagated rejection, not to the
claimed `null` (`Except.ok none`) — the function has no `try`/`catch`. -/
theorem c5_counterexample :
    createPublicLink "img/cat.png" (.error ()) = .error () ∧
    (Except.error () : Except Unit (Option String)) ≠ .ok none := by decide

/-- Witness for C5: the amended theorem applied to `"cat.png"` and the base
share URL `https://cloud/s/Xy`. -/
theorem c5_witness :
    createPublicLink "cat.png" (.ok (some "https://cloud/s/Xy")) =
      .ok (some ("https://cloud/s/Xy" ++ "/download/" ++
        encodeURIComponent "cat.png")) ∧
    createPublicLink "cat.png" (.ok none) = .ok none ∧
    createPublicLink "cat.png" (.error ()) = .error () :=
  c5_createPublicLink_failure_modes "cat.png" "https://cloud/s/Xy" ()
    (by decide)

/-- C6: when `checkPublicLink` returns a public URL `u` for the submitted
file, `_onSubmit` issues no share-creation request, records `u ↦ fileValue`
in the persisted path/URL map, and resolves the selection to `u`. -/
theorem c6_existing_link_no_create (fileValue subdir shareTarget u : String)
    (st : SubmitState) (shareResp : Except Unit (List Share)) (proceed : Bool)
    (createResp : Except Unit (Option String))
    (hfv : fileValue ≠ "")
    (hlink : checkPublicLink fileValue subdir shareTarget shareResp = .link u)
    (hu : u ≠ "") :
    (onSubmit fileValue subdir shareTarget st shareResp proceed
        createResp).createRequested = false ∧
    storeGet (onSubmit fileValue subdir shareTarget st shareResp proceed
        createResp).store u = some fileValue ∧
    (onSubmit fileValue subdir shareTarget st shareResp proceed
        createResp).resolved = some (.str u) := by
  simp only [onSubmit]
  rw [if_neg hfv, hlink]
  simp [checkToVal, jsTruthy, jsToKey, handleFileSelection, storeSet,
    storeGet, hu]

/-- Witness for C6: a submit of `notes.txt` whose sharing response already
carries a link share; the resulting URL is recorded and no create request
is issued. -/
theorem c6_witness :
    (onSubmit "notes.txt" "" "" (SubmitState.mk (fun _ => none) "")
        (.ok [{ shareType := 3, url := some "https://cloud/s/AbC",
                mimetype := "text/plain", fileTarget := "/notes.txt",
                sharePath := "/notes.txt" }]) false
        (.ok none)).createRequested = false ∧
    storeGet (onSubmit "notes.txt" "" "" (SubmitState.mk (fun _ => none) "")
        (.ok [{ shareType := 3, url := some "https://cloud/s/AbC",
                mimetype := "text/plain", fileTarget := "/notes.txt",
                sharePath := "/notes.txt" }]) false
        (.ok none)).store "https://cloud/s/AbC/download/notes.txt" =
      some "notes.txt" ∧
    (onSubmit "notes.txt" "" "" (SubmitState.mk (fun _ => none) "")
        (.ok [{ shareType := 3, url := some "https://cloud/s/AbC",
                mimetype := "text/plain", fileTarget := "/notes.txt",
                sharePath := "/notes.txt" }]) false
        (.ok none)).resolved =
      some (.str "https://cloud/s/AbC/download/notes.txt") :=
  c6_existing_link_no_create "notes.txt" "" ""
    "https://cloud/s/AbC/download/notes.txt" (SubmitState.mk (fun _ => none) "")
    _ false (.ok none) (by decide) (by decide) (by decide)

/-- C7: when no public link was found (the checked value is falsy) and the
user declines the confirmation dialog, `_onSubmit` aborts with no state
change: the path/URL map and the browse target are exactly the input state,
no share-creation request is issued, and nothing is resolved. -/
theorem c7_decline_no_state_change (fileValue subdir shareTarget : String)
    (st : SubmitState) (shareResp : Except Unit (List Share))
    (createResp : Except Unit (Option String))
    (hfv : fileValue ≠ "")
    (hnolink : jsTruthy (checkToVal
      (checkPublicLink fileValue subdir shareTarget shareResp)) = false) :
    onSubmit fileValue subdir shareTarget st shareResp false createResp =
      SubmitOutcome.mk st.store st.target false none false := by
  simp only [onSubmit]
  rw [if_neg hfv, hnolink]
  rfl

/-- Witness for C7: declining the dialog for `notes.txt` when the sharing
response is empty leaves the store and target untouched. -/
theorem c7_witness :
    onSubmit "notes.txt" "" "" (SubmitState.mk (fun _ => none) "maps")
        (.ok []) false (.ok none) =
      SubmitOutcome.mk (fun _ => none) "maps" false none false :=
  c7_decline_no_state_change "notes.txt" "" ""
    (SubmitState.mk (fun _ => none) "maps") (.ok []) (.ok none) (by decide)
    (by decide)

/-- C8: the path/URL correspondence store satisfies the round-trip law —
after `handleFileSelection` records `u ↦ p`, reading key `u` yields `p`. -/
theorem c8_store_round_trip (m : StoreMap) (u p : String) (hu : u ≠ "") :
    storeGet (handleFileSelection p u m) u = some p := by
  simp [handleFileSelection, storeSet, storeGet]

/-- Witness for C8: round trip on a concrete URL/path pair over the empty
store. -/
theorem c8_witness :
    storeGet (handleFileSelection "img/cat.png" "https://cloud/s/Xy"
      (fun _ => none)) "https://cloud/s/Xy" = some "img/cat.png" :=
  c8_store_round_trip (fun _ => none) "https://cloud/s/Xy" "img/cat.png"
    (by decide)

/-- C9 (amended): listing the root on a server that returns the files in
the order `a.png`, `b.png` and the directory `sub` surfaces
`dirs = ["sub"]` and `files = ["a.png", "b.png"]`; directory names are
sorted case-insensitively by `getData` (second scenario: `Zeta`/`alpha`
come out as `alpha`, `Zeta`), while file names are surfaced in server
response order — they are not sorted (see the counterexample). -/
theorem c9_root_listing_surfaced :
    (getDataDirs (browseResult "any" [] ""
        (convertToBrowseResults (parseWebDavResponse "alice" ""
          [⟨"/remote.php/dav/files/alice/", true⟩,
           ⟨"/remote.php/dav/files/alice/a.png", false⟩,
           ⟨"/remote.php/dav/files/alice/b.png", false⟩,
           ⟨"/remote.php/dav/files/alice/sub/", true⟩] "")))).map
      SurfDir.name = ["sub"] ∧
    (getDataFiles (browseResult "any" [] ""
        (convertToBrowseResults (parseWebDavResponse "alice" ""
          [⟨"/remote.php/dav/files/alice/", true⟩,
           ⟨"/remote.php/dav/files/alice/a.png", false⟩,
           ⟨"/remote.php/dav/files/alice/b.png", false⟩,
           ⟨"/remote.php/dav/files/alice/sub/", true⟩] "")))).map
      SurfFile.name = ["a.png", "b.png"] ∧
    (getDataDirs (browseResult "any" [] ""
        (convertToBrowseResults (parseWebDavResponse "alice" ""
          [⟨"/remote.php/dav/files/alice/", true⟩,
           ⟨"/remote.php/dav/files/alice/Zeta/", true⟩,
           ⟨"/remote.php/dav/files/alice/alpha/", true⟩] "")))).map
      SurfDir.name = ["alpha", "Zeta"] := by decide

/-- Counterexample to C9 as stated: when the server returns the same two
files in the order `b.png`, `a.png`, the surfaced file names keep the
response order — `getData` never sorts the files — so they are not
case-insensitively sorted. -/
theorem c9_counterexample :
    (getDataFiles (browseResult "any" [] ""
        (convertToBrowseResults (parseWebDavResponse "alice" ""
          [⟨"/remote.php/dav/files/alice/", true⟩,
           ⟨"/remote.php/dav/files/alice/b.png", false⟩,
           ⟨"/remote.php/dav/files/alice/a.png", false⟩,
           ⟨"/remote.php/dav/files/alice/sub/", true⟩] "")))).map
      SurfFile.name = ["b.png", "a.png"] ∧
    (["b.png", "a.png"] : List String) ≠ ["a.png", "b.png"] := by decide

/-- C10: a trailing-slash directory path is cut by `substring(0, -1)` to the
empty string before the sharing query is built, so the shares request is
issued for the configured subdirectory root alone, whatever directory was
named. -/
theorem c10_trailing_slash_query (subdir p1 p2 : String)
    (h1 : sliceLast p1 = "/") (h2 : sliceLast p2 = "/") :
    checkPublicLinkQueryPath p1 subdir =
      (if subdir ≠ "" then subdir ++ "/" else "") ∧
    checkPublicLinkQueryPath p1 subdir = checkPublicLinkQueryPath p2 subdir := by
  have key : ∀ p, sliceLast p = "/" →
      checkPublicLinkQueryPath p subdir =
        (if subdir ≠ "" then subdir ++ "/" else "") := by
    intro p hp
    simp only [checkPublicLinkQueryPath]
    rw [if_pos hp]
    have hsub : jsSubstring p 0 (-1) = "" :=
      strExt (by simp [jsSubstring, clampNat])
    rw [hsub]
    have henc : encodeURIComponent "" = "" := rfl
    rw [henc]
    by_cases hsd : subdir = ""
    · rw [if_neg (fun h => h hsd), if_neg (fun h => h hsd)]
    · rw [if_pos hsd, if_pos hsd, strAppend_empty]
  exact ⟨key p1 h1, (key p1 h1).trans (key p2 h2).symm⟩

/-- Witness for C10: two different directory paths produce the same query
path, the configured subdirectory root. -/
theorem c10_witness :
    checkPublicLinkQueryPath "maps/" "base" =
      (if ("base" : String) ≠ "" then "base" ++ "/" else "") ∧
    checkPublicLinkQueryPath "maps/" "base" =
      checkPublicLinkQueryPath "tokens/art/" "base" :=
  c10_trailing_slash_query "base" "maps/" "tokens/art/" (by decide) (by decide)

end NCFP
